import Mathlib

/-!
Verification of the Biscoint arbitrage bot engine (src/unnamed/part_000).

The source is a single JavaScript module.  We embed its core shallowly:

* prices and intervals are JavaScript numbers used on small exact values; we
  model them as rationals (`ℚ`);
* the exchange API (`offer`, `confirmOffer`, `trades`) is a black box; each
  trade-cycle invocation reads its results from an explicit `CycleEnv` record
  of `Except`-valued responses, mirroring a call that either returns or throws;
* the mutable module globals (`pollerIndex`, `burstsLeft`, `burstMax`) form
  the `BotState` record threaded through the cycle function;
* the recursive `tradeCycle` / burst `while` loop pair is embedded as one
  fuel-indexed structurally recursive function `engine`, with the two JS
  recursion sites (`await tradeCycle()` on revert, the burst loop body)
  mapped to recursive `engine` calls.
-/

namespace Biscoint

/-- Operation side of a quote, the `op` field of `bc.offer`. -/
inductive Op where
  | buy
  | sell
deriving Repr, DecidableEq

/-- A quote returned by `bc.offer`: an identifier and an effective price
(`offerId`, `efPrice` in the source). -/
structure Offer where
  offerId : ℕ
  efPrice : ℚ
deriving Repr, DecidableEq

/-- An executed trade as returned by `bc.trades`; the source only inspects
its `offerId` field. -/
structure Trade where
  offerId : ℕ
deriving Repr, DecidableEq

/-- `percent` from the source:
`function percent(value1, value2) { return (Number(value2) / Number(value1) - 1) * 100; }` -/
def percent (value1 value2 : ℚ) : ℚ :=
  (value2 / value1 - 1) * 100

/-! ## Rate-limit calibration (`checkInterval`, source lines 70-87) -/

/-- `minInterval` as computed in `checkInterval`:
`let minInterval = 2 * windowMs / maxRequests / 1000;`. -/
def minIntervalOf (windowMs maxRequests : ℚ) : ℚ :=
  2 * windowMs / maxRequests / 1000

/-- Result of `checkInterval`: either the configuration error thrown by
`handleMessage(..., 'error', true)` (the process then never reaches
`startTrading`), or the adopted interval together with the `burstMax`
ceiling (which also initializes `burstsLeft`). -/
inductive CalibrationResult where
  | fail
  | ok (intervalSeconds : ℚ) (burstMax : ℤ)
deriving Repr, DecidableEq

/-- `checkInterval` from the source (lines 70-87).  The configured
`intervalSeconds` is optional; JavaScript treats a configured `0` like an
absent value (`if (!intervalSeconds)`), so `some 0` also adopts the minimum.
`Math.floor` becomes `Int.floor` on `ℚ`. -/
def checkInterval (windowMs maxRequests : ℚ) (intervalSeconds : Option ℚ) :
    CalibrationResult :=
  let minInterval := minIntervalOf windowMs maxRequests
  match intervalSeconds with
  | none => .ok minInterval 0
  | some i =>
    if i = 0 then .ok minInterval 0
    else if i < minInterval then .fail
    else if minInterval < i then
      .ok i ⌊(i - minInterval) / minInterval / 4 * maxRequests⌋
    else .ok i 0

/-! ## Trade cycle (`tradeCycle`, source lines 90-218) -/

deriving instance DecidableEq for Except

/-- Configuration fields read by `tradeCycle` (destructured from `config` at
the top of the source).  `helperCount` is `helperKeys.length`, the number of
helper API connectors pushed into `helpers` by `init`. -/
structure Config where
  initialBuy : Bool
  minProfitPercent : ℚ
  burst : Bool
  simulation : Bool
  helperCount : ℕ
deriving Repr, DecidableEq

/-- The mutable module globals touched by `tradeCycle`:
`pollerIndex`, `burstsLeft`, `burstMax`.  `burstMax` is written only by
`checkInterval` at startup; `tradeCycle` reads it for the cap. -/
structure BotState where
  pollerIndex : ℕ
  burstsLeft : ℤ
  burstMax : ℤ
deriving Repr, DecidableEq

/-- Which credential services a request: the primary connector `bc` or
`helpers[i]`. -/
inductive Poller where
  | main
  | helper (i : ℕ)
deriving Repr, DecidableEq

/-- The exchange's responses to the API calls one `tradeCycle` invocation can
issue, in program order.  `Except.error` models the call throwing.  A field is
consulted only if the corresponding call is reached (e.g. `sellOffer` is
irrelevant when `buyOffer` throws, since the source `await`s them
sequentially inside one `try`). -/
structure CycleEnv where
  buyOffer : Except Unit Offer
  sellOffer : Except Unit Offer
  confirmFirst : Except Unit Unit
  confirmSecond : Except Unit Unit
  tradesResult : Except Unit (List Trade)
  recoveryOffer : Except Unit Offer
  recoveryConfirm : Except Unit Unit
deriving Repr, DecidableEq

/-- Observable events of one run, used to state which API calls happen and in
which order.  `advanced` records the new `pollerIndex` written by the
`finally` block; `confirmed` records a successful `bc.confirmOffer`. -/
inductive Ev where
  | fetched (p : Poller)
  | fetchError
  | advanced (idx : ℕ)
  | revertToMain
  | wouldSimulate
  | confirmed (offerId : ℕ)
  | confirmFailed
  | queriedTrades (op : Op)
  | secondLegSettled
  | requestedRecoveryOffer (op : Op)
  | recoveryConfirmed (offerId : ℕ)
  | logFatal
  | slept (ms : ℕ)
  | burstEarned
deriving Repr, DecidableEq

/-- How a run ends: a JavaScript `return` (with its truthiness and the state
of the globals, plus the unconsumed response script), `process.exit(code)`,
or exhaustion of the fuel / response script of the embedding. -/
inductive Halt where
  | ret (value : Bool) (st : BotState) (envs : List CycleEnv)
  | exit (code : ℕ)
  | stop
deriving Repr, DecidableEq

/-- Result of a run: how it halted plus the events it emitted. -/
structure RunResult where
  halt : Halt
  evs : List Ev
deriving Repr, DecidableEq

/-- The `finally` block of the quote-fetching `try` (source lines 121-126):
`pollerIndex = (pollerIndex + 1) % (helpers.length + 1);`. -/
def advanceRotation (cfg : Config) (st : BotState) : BotState :=
  { st with pollerIndex := (st.pollerIndex + 1) % (cfg.helperCount + 1) }

/-- The no-arbitrage branch update (source line 212):
`burstsLeft = Math.min(burstMax, burstsLeft + 1);`. -/
def earnBurst (st : BotState) : BotState :=
  { st with burstsLeft := min st.burstMax (st.burstsLeft + 1) }

/-- The burst-budget decrements (source lines 135 and 169):
`burstsLeft--` / `--burstsLeft`. -/
def spendBurst (st : BotState) : BotState :=
  { st with burstsLeft := st.burstsLeft - 1 }

/-- The profit the cycle computes from a fetched quote pair, if both fetches
succeed: `profit = percent(buyOffer.efPrice, sellOffer.efPrice)` (line 116).
On a fetch error `profit` stays `undefined` in the source. -/
def quotedProfit (env : CycleEnv) : Option ℚ :=
  match env.buyOffer, env.sellOffer with
  | .ok bo, .ok so => some (percent bo.efPrice so.efPrice)
  | _, _ => none

/-- The threshold test `profit >= minProfitPercent` (line 129); with
`profit` `undefined` (fetch error) the JavaScript comparison is false. -/
def isProfitable (cfg : Config) (env : CycleEnv) : Bool :=
  match quotedProfit env with
  | some p => decide (cfg.minProfitPercent ≤ p)
  | none => false

/-- Outcome of the partial-failure recovery block (source lines 181-208). -/
inductive RecoveryResult where
  | settled
  | normalized
  | fatal
deriving Repr, DecidableEq

/-- The recovery block for a missed second leg (source lines 183-207),
entered when `firstLeg && !secondLeg`:

```
let secondOp = initialBuy ? 'sell' : 'buy';
const trades = await bc.trades({ op: secondOp });
if (_.find(trades, t => t.offerId === secondOffer.offerId)) { ... return; }
secondLeg = await bc.offer({ amount, isQuote, op: secondOp });
await bc.confirmOffer({ offerId: secondLeg.offerId });
```

with the surrounding `catch` doing
`handleMessage(..., 'fatal'); await sleep(500); process.exit(1);`.
The caller turns `.fatal` into `Halt.exit 1`. -/
def recoverSecondLeg (cfg : Config) (secondOffer : Offer) (env : CycleEnv) :
    RecoveryResult × List Ev :=
  let secondOp := if cfg.initialBuy then Op.sell else Op.buy
  match env.tradesResult with
  | .error _ => (.fatal, [.queriedTrades secondOp, .logFatal, .slept 500])
  | .ok trades =>
    if trades.any (fun t => t.offerId == secondOffer.offerId) then
      (.settled, [.queriedTrades secondOp, .secondLegSettled])
    else
      match env.recoveryOffer with
      | .error _ =>
        (.fatal, [.queriedTrades secondOp, .requestedRecoveryOffer secondOp,
          .logFatal, .slept 500])
      | .ok off =>
        match env.recoveryConfirm with
        | .error _ =>
          (.fatal, [.queriedTrades secondOp, .requestedRecoveryOffer secondOp,
            .logFatal, .slept 500])
        | .ok _ =>
          (.normalized, [.queriedTrades secondOp,
            .requestedRecoveryOffer secondOp, .recoveryConfirmed off.offerId])

/-- Shared tail of the two non-profitable exits (source lines 210-215 plus the
final `return false`): outside a burst the budget is incremented, capped at
`burstMax`. -/
def notProfitResult (st : BotState) (envs : List CycleEnv) (bursting : Bool)
    (evs : List Ev) : RunResult :=
  if bursting then ⟨.ret false st envs, evs⟩
  else ⟨.ret false (earnBurst st) envs, evs ++ [Ev.burstEarned]⟩

/-- A pending activation of the source's two recursion sites: `.cycle` is an
invocation of `tradeCycle(bursting)` (consuming the head of the response
script), `.chain` is the burst `while` loop of lines 168-174 running with the
given accumulated events. -/
inductive Call where
  | cycle (st : BotState) (envs : List CycleEnv) (bursting : Bool)
  | chain (st : BotState) (envs : List CycleEnv) (evs : List Ev)
deriving Repr

/-- Fuel-indexed embedding of `tradeCycle` (source lines 90-218).  Each
JavaScript construct maps one-to-one:

* poller selection, lines 91-101: `bursting || pollerIndex === 0` picks `bc`;
* quote fetching and the `finally` rotation advance, lines 103-126;
* the threshold test and helper revert, lines 128-139: when a helper found
  the spread and `burstsLeft > 0`, the index is forced to `0`, the budget is
  decremented and `tradeCycle()` recurses (its return value is discarded and
  the helper invocation returns `false`);
* leg ordering by `initialBuy`, simulation short-circuit, the two sequential
  `bc.confirmOffer` calls, lines 140-160;
* the burst `while` loop, lines 166-175, via `.chain`: it decrements
  `burstsLeft`, runs `tradeCycle(true)` and breaks on a falsy return, after
  which the invocation returns `true`;
* the `catch` with the recovery block, lines 177-209: a failed first confirm
  leaves `firstLeg` undefined, so recovery is skipped and the invocation
  falls through to `return false`; a failed second confirm runs
  `recoverSecondLeg`, whose fatal outcome becomes `process.exit(1)`;
* the no-arbitrage branch, lines 210-215.

`lastTrade = Date.now()` and the logging/sound side effects carry no state
the claims mention and are not modelled.  The fuel only bounds the recursion
depth of the embedding; every theorem quantifies over or instantiates it. -/
def engine (cfg : Config) : ℕ → Call → RunResult
  | 0, .cycle _ _ _ => ⟨.stop, []⟩
  | 0, .chain _ _ evs => ⟨.stop, evs⟩
  | _+1, .cycle _ [] _ => ⟨.stop, []⟩
  | fuel+1, .chain st envs evs =>
    if 0 < st.burstsLeft then
      let r := engine cfg fuel (.cycle (spendBurst st) envs true)
      match r.halt with
      | .ret true st1 envs1 => engine cfg fuel (.chain st1 envs1 (evs ++ r.evs))
      | .ret false st1 envs1 => ⟨.ret true st1 envs1, evs ++ r.evs⟩
      | h => ⟨h, evs ++ r.evs⟩
    else ⟨.ret true st envs, evs⟩
  | fuel+1, .cycle st (env :: envs) bursting =>
    let isMain : Bool := bursting || st.pollerIndex == 0
    let poller := if isMain then Poller.main else Poller.helper (st.pollerIndex - 1)
    let st1 := advanceRotation cfg st
    match env.buyOffer, env.sellOffer with
    | .ok bo, .ok so =>
      let profit := percent bo.efPrice so.efPrice
      let evs0 := [Ev.fetched poller, Ev.advanced st1.pollerIndex]
      if cfg.minProfitPercent ≤ profit then
        if isMain then
          let firstOffer := if cfg.initialBuy then bo else so
          let secondOffer := if cfg.initialBuy then so else bo
          if cfg.simulation then
            if cfg.burst && !bursting && st1.burstsLeft != 0 then
              engine cfg fuel (.chain st1 envs (evs0 ++ [Ev.wouldSimulate]))
            else ⟨.ret true st1 envs, evs0 ++ [Ev.wouldSimulate]⟩
          else
            match env.confirmFirst with
            | .error _ => ⟨.ret false st1 envs, evs0 ++ [Ev.confirmFailed]⟩
            | .ok _ =>
              match env.confirmSecond with
              | .ok _ =>
                let evs1 := evs0 ++ [Ev.confirmed firstOffer.offerId,
                  Ev.confirmed secondOffer.offerId]
                if cfg.burst && !bursting && st1.burstsLeft != 0 then
                  engine cfg fuel (.chain st1 envs evs1)
                else ⟨.ret true st1 envs, evs1⟩
              | .error _ =>
                let rr := recoverSecondLeg cfg secondOffer env
                let evs1 := evs0 ++ Ev.confirmed firstOffer.offerId :: rr.2
                match rr.1 with
                | .fatal => ⟨.exit 1, evs1⟩
                | _ => ⟨.ret false st1 envs, evs1⟩
        else
          if 0 < st1.burstsLeft then
            let r := engine cfg fuel
              (.cycle (spendBurst { st1 with pollerIndex := 0 }) envs false)
            match r.halt with
            | .ret _ st2 envs2 =>
              ⟨.ret false st2 envs2, evs0 ++ Ev.revertToMain :: r.evs⟩
            | h => ⟨h, evs0 ++ Ev.revertToMain :: r.evs⟩
          else ⟨.ret false st1 envs, evs0⟩
      else notProfitResult st1 envs bursting evs0
    | _, _ =>
      notProfitResult st1 envs bursting
        [Ev.fetched poller, Ev.fetchError, Ev.advanced st1.pollerIndex]

/-- One invocation of `tradeCycle(bursting)`. -/
def tradeCycle (cfg : Config) (fuel : ℕ) (st : BotState) (envs : List CycleEnv)
    (bursting : Bool) : RunResult :=
  engine cfg fuel (.cycle st envs bursting)

/-- The burst `while` loop of source lines 168-174, entered with the current
globals and the events accumulated so far. -/
def burstLoop (cfg : Config) (fuel : ℕ) (st : BotState) (envs : List CycleEnv)
    (evs : List Ev) : RunResult :=
  engine cfg fuel (.chain st envs evs)

/-- Successive timer-driven invocations of `tradeCycle` (no argument, so
`bursting` is undefined/false), as `setInterval(tradeCycle, intervalMs)`
fires: each invocation runs on the globals left by the previous one.  A
`process.exit` (or embedding exhaustion) ends the schedule. -/
def runSchedule (cfg : Config) (fuel : ℕ) :
    BotState → List (List CycleEnv) → List RunResult
  | _, [] => []
  | st, script :: rest =>
    let r := tradeCycle cfg fuel st script false
    match r.halt with
    | .ret _ st1 _ => r :: runSchedule cfg fuel st1 rest
    | _ => [r]

/-- The pollers that served the quote fetches of a run, in order. -/
def fetchedPollers (r : RunResult) : List Poller :=
  r.evs.filterMap fun e =>
    match e with
    | .fetched p => some p
    | _ => none

/-! ## Scheduler (`startTrading`, source lines 221-226) and `sleep` -/

/-- `intervalMs` as computed by `startTrading` (line 222):
`let intervalMs = intervalSeconds / (helpers.length + 1) * 1000;`. -/
def scheduledIntervalMs (intervalSeconds : ℚ) (helperCount : ℕ) : ℚ :=
  intervalSeconds / (helperCount + 1) * 1000

/-- The delay before the next scheduled cycle as a function of the previous
cycle's runtime.  The source arms one fixed-period timer,
`setInterval(tradeCycle, intervalMs)` (line 225), so the delay is the
constant `intervalMs` whatever the runtime was. -/
def nextDelayMs (intervalSeconds : ℚ) (helperCount : ℕ)
    (actualCycleRuntimeMs : ℚ) : ℚ :=
  scheduledIntervalMs intervalSeconds helperCount

/-- Modelled from the spec (section 5): the claimed self-rescheduling delay
`max(configuredIntervalMs - actualCycleRuntimeMs, 0)`, stated for comparison
with `nextDelayMs` above. -/
def specNextDelayMs (configuredIntervalMs actualCycleRuntimeMs : ℚ) : ℚ :=
  max (configuredIntervalMs - actualCycleRuntimeMs) 0

/-- Milliseconds that elapse before the promise returned by `sleep(ms)`
(source lines 230-232) is resolved.  The source reads
`new Promise(resolve => setTimeout(resolve(), ms))`: `resolve()` is *invoked*
immediately while the executor runs (its `undefined` return value is what is
handed to `setTimeout`), so the promise is already resolved when `await`ed
and no pause of `ms` milliseconds happens. -/
def sleepResolveDelayMs (ms : ℕ) : ℕ := 0

/-! ## Concrete fixtures used by witnesses and counterexamples -/

/-- A configuration with one primary key, first leg buy, 1% threshold, no
burst flag, no simulation. -/
def cfgPlain : Config := ⟨true, 1, false, false, 0⟩

/-- Two-helper configuration used for rotation scenarios. -/
def cfgRot : Config := ⟨true, 1, false, false, 2⟩

/-- Simulation-mode configuration with burst enabled and two helpers. -/
def cfgSim : Config := ⟨true, 1, true, true, 2⟩

/-- A cycle whose quotes succeed with zero spread (profit 0%, below a 1%
threshold). -/
def envLow : CycleEnv :=
  ⟨.ok ⟨1, 100⟩, .ok ⟨2, 100⟩, .error (), .error (), .error (), .error (), .error ()⟩

/-- A cycle whose buy-quote fetch throws. -/
def envErr : CycleEnv :=
  ⟨.error (), .error (), .error (), .error (), .error (), .error (), .error ()⟩

/-- A profitable cycle (1% spread) where every later call would throw;
enough for simulation mode and for helper detections. -/
def envProfit : CycleEnv :=
  ⟨.ok ⟨1, 100⟩, .ok ⟨2, 101⟩, .error (), .error (), .error (), .error (), .error ()⟩

/-- Profitable cycle: first confirm succeeds, second throws, and the trade
history already contains the second offer (id 2) — leg 2 settled
server-side. -/
def envSettled : CycleEnv :=
  ⟨.ok ⟨1, 100⟩, .ok ⟨2, 101⟩, .ok (), .error (), .ok [⟨2⟩], .ok ⟨7, 99⟩, .ok ()⟩

/-- Profitable cycle: first confirm succeeds, second throws, history shows no
matching trade, and the corrective offer (id 7) confirms fine. -/
def envNoMatch : CycleEnv :=
  ⟨.ok ⟨1, 100⟩, .ok ⟨2, 101⟩, .ok (), .error (), .ok [], .ok ⟨7, 99⟩, .ok ()⟩

/-- Profitable cycle: first confirm succeeds, second throws, history empty,
and the corrective offer request itself throws — the fatal path. -/
def envFatal : CycleEnv :=
  ⟨.ok ⟨1, 100⟩, .ok ⟨2, 101⟩, .ok (), .error (), .ok [], .error (), .error ()⟩

/-! ## Shared invariants and helper lemmas -/

/-- The burst-budget data invariant from the spec:
`0 ≤ remaining ≤ ceiling`. -/
def BurstInv (st : BotState) : Prop :=
  0 ≤ st.burstsLeft ∧ st.burstsLeft ≤ st.burstMax

/-- The invariant carried by a pending activation. -/
def callInv : Call → Prop
  | .cycle st _ _ => BurstInv st
  | .chain st _ _ => BurstInv st

theorem burstInv_advanceRotation (cfg : Config) (st : BotState)
    (h : BurstInv st) : BurstInv (advanceRotation cfg st) := h

theorem burstInv_setPoller (st : BotState) (i : ℕ) (h : BurstInv st) :
    BurstInv { st with pollerIndex := i } := h

theorem burstInv_earnBurst (st : BotState) (h : BurstInv st) :
    BurstInv (earnBurst st) := by
  rcases h with ⟨h0, h1⟩
  constructor
  · simp only [earnBurst, le_min_iff] at *
    omega
  · simp only [earnBurst]
    exact min_le_left _ _

theorem burstInv_spendBurst (st : BotState) (h : BurstInv st)
    (hpos : 0 < st.burstsLeft) : BurstInv (spendBurst st) := by
  rcases h with ⟨h0, h1⟩
  exact ⟨by simp only [spendBurst]; omega, by simp only [spendBurst]; omega⟩

/-- Every way a run can `return` leaves the burst counters inside the
invariant: the engine only ever increments the balance through the capped
`earnBurst` and decrements it behind a positivity guard. -/
theorem engine_burstInv : ∀ (fuel : ℕ) (cfg : Config) (c : Call), callInv c →
    ∀ (v : Bool) (st' : BotState) (envs' : List CycleEnv),
      (engine cfg fuel c).halt = .ret v st' envs' → BurstInv st' := by
  intro fuel
  induction fuel with
  | zero =>
    intro cfg c hc v st' envs' h
    cases c <;> simp [engine] at h
  | succ f ih =>
    intro cfg c hc v st' envs' h
    cases c with
    | chain st envs evs =>
      have hc' : BurstInv st := hc
      simp only [engine] at h
      by_cases hb : 0 < st.burstsLeft
      case neg =>
        rw [if_neg hb] at h
        cases h
        exact hc'
      rw [if_pos hb] at h
      have hspend : BurstInv (spendBurst st) := burstInv_spendBurst st hc' hb
      cases hhalt : (engine cfg f (.cycle (spendBurst st) envs true)).halt with
      | ret rv rst renvs =>
        have hrst : BurstInv rst := by
          refine ih cfg _ ?_ rv rst renvs hhalt
          exact hspend
        rw [hhalt] at h
        cases rv
        · simp only at h
          cases h
          exact hrst
        · simp only at h
          refine ih cfg _ ?_ v st' envs' h
          exact hrst
      | exit code =>
        rw [hhalt] at h
        simp at h
      | stop =>
        rw [hhalt] at h
        simp at h
    | cycle st envs0 b =>
      cases envs0 with
      | nil => simp [engine] at h
      | cons env envs =>
        have hc' : BurstInv st := hc
        have hst1 : BurstInv (advanceRotation cfg st) :=
          burstInv_advanceRotation cfg st hc'
        simp only [engine] at h
        cases hbuy : env.buyOffer with
        | error e =>
          rw [hbuy] at h
          simp only [notProfitResult] at h
          split at h <;> cases h
          · exact hst1
          · exact burstInv_earnBurst _ hst1
        | ok bo =>
        rw [hbuy] at h
        cases hsell : env.sellOffer with
        | error e =>
          rw [hsell] at h
          simp only [notProfitResult] at h
          split at h <;> cases h
          · exact hst1
          · exact burstInv_earnBurst _ hst1
        | ok so =>
        rw [hsell] at h
        simp only at h
        by_cases hprof : cfg.minProfitPercent ≤ percent bo.efPrice so.efPrice
        case neg =>
          rw [if_neg hprof] at h
          simp only [notProfitResult] at h
          split at h <;> cases h
          · exact hst1
          · exact burstInv_earnBurst _ hst1
        rw [if_pos hprof] at h
        by_cases hmain : (b || st.pollerIndex == 0) = true
        case pos =>
          rw [if_pos hmain] at h
          by_cases hsim : cfg.simulation = true
          · rw [if_pos hsim] at h
            split at h
            · refine ih cfg _ ?_ v st' envs' h
              exact hst1
            · cases h
              exact hst1
          · rw [if_neg hsim] at h
            cases hcf : env.confirmFirst with
            | error e =>
              rw [hcf] at h
              cases h
              exact hst1
            | ok u =>
            rw [hcf] at h
            cases hcs : env.confirmSecond with
            | error e =>
              rw [hcs] at h
              simp only at h
              split at h
              · simp at h
              · cases h
                exact hst1
            | ok u2 =>
            rw [hcs] at h
            simp only at h
            split at h
            · refine ih cfg _ ?_ v st' envs' h
              exact hst1
            · cases h
              exact hst1
        case neg =>
          rw [if_neg hmain] at h
          by_cases hb : 0 < (advanceRotation cfg st).burstsLeft
          · rw [if_pos hb] at h
            have hspend :
                BurstInv (spendBurst { advanceRotation cfg st with pollerIndex := 0 }) :=
              burstInv_spendBurst _ (burstInv_setPoller _ _ hst1) hb
            cases hhalt : (engine cfg f
                (.cycle (spendBurst { advanceRotation cfg st with pollerIndex := 0 })
                  envs false)).halt with
            | ret rv rst renvs =>
              have hrst : BurstInv rst := by
                refine ih cfg _ ?_ rv rst renvs hhalt
                exact hspend
              rw [hhalt] at h
              simp only at h
              cases h
              exact hrst
            | exit code =>
              rw [hhalt] at h
              simp at h
            | stop =>
              rw [hhalt] at h
              simp at h
          · rw [if_neg hb] at h
            cases h
            exact hst1

/-- The burst loop only appends to the events accumulated so far. -/
theorem chain_evs_prefix (cfg : Config) : ∀ (fuel : ℕ) (st : BotState)
    (envs : List CycleEnv) (evs : List Ev),
    ∃ tail, (engine cfg fuel (.chain st envs evs)).evs = evs ++ tail := by
  intro fuel
  induction fuel with
  | zero =>
    intro st envs evs
    exact ⟨[], by simp [engine]⟩
  | succ f ih =>
    intro st envs evs
    simp only [engine]
    by_cases hb : 0 < st.burstsLeft
    case neg =>
      rw [if_neg hb]
      exact ⟨[], by simp⟩
    rw [if_pos hb]
    cases hhalt : (engine cfg f (.cycle (spendBurst st) envs true)).halt with
    | ret rv rst renvs =>
      cases rv
      · exact ⟨_, rfl⟩
      · simp only
        obtain ⟨tail, htail⟩ :=
          ih rst renvs (evs ++ (engine cfg f (.cycle (spendBurst st) envs true)).evs)
        rw [htail]
        exact ⟨_, by rw [List.append_assoc]⟩
    | exit code =>
      exact ⟨_, rfl⟩
    | stop =>
      exact ⟨_, rfl⟩

/-- Every completed invocation's event list starts with the quote fetch
through the selected poller: the primary when bursting or when the rotation
index is zero, otherwise the indicated helper. -/
theorem cycle_evs_head (cfg : Config) (fuel : ℕ) (st : BotState)
    (env : CycleEnv) (envs : List CycleEnv) (b : Bool) :
    ∃ tail, (engine cfg (fuel+1) (.cycle st (env :: envs) b)).evs =
      Ev.fetched (if b || st.pollerIndex == 0 then Poller.main
        else Poller.helper (st.pollerIndex - 1)) :: tail := by
  simp only [engine]
  cases hbuy : env.buyOffer with
  | error e =>
    simp only [notProfitResult]
    split
    · exact ⟨_, rfl⟩
    · exact ⟨_, rfl⟩
  | ok bo =>
    cases hsell : env.sellOffer with
    | error e =>
      simp only [notProfitResult]
      split
      · exact ⟨_, rfl⟩
      · exact ⟨_, rfl⟩
    | ok so =>
      simp only
      by_cases hprof : cfg.minProfitPercent ≤ percent bo.efPrice so.efPrice
      case neg =>
        rw [if_neg hprof]
        simp only [notProfitResult]
        split
        · exact ⟨_, rfl⟩
        · exact ⟨[Ev.advanced (advanceRotation cfg st).pollerIndex, Ev.burstEarned], rfl⟩
      rw [if_pos hprof]
      by_cases hmain : (b || st.pollerIndex == 0) = true
      case pos =>
        rw [if_pos hmain]
        by_cases hsim : cfg.simulation = true
        · rw [if_pos hsim]
          split
          · obtain ⟨tail, htail⟩ := chain_evs_prefix cfg fuel _ envs _
            rw [htail]
            exact ⟨_, rfl⟩
          · exact ⟨_, rfl⟩
        · rw [if_neg hsim]
          cases hcf : env.confirmFirst with
          | error e => exact ⟨_, rfl⟩
          | ok u =>
            cases hcs : env.confirmSecond with
            | error e =>
              simp only
              split
              · exact ⟨_, rfl⟩
              · exact ⟨_, rfl⟩
            | ok u2 =>
              simp only
              split
              · obtain ⟨tail, htail⟩ := chain_evs_prefix cfg fuel _ envs _
                rw [htail]
                exact ⟨_, rfl⟩
              · exact ⟨_, rfl⟩
      case neg =>
        rw [if_neg hmain]
        split
        · cases hhalt : (engine cfg fuel
              (.cycle (spendBurst { advanceRotation cfg st with pollerIndex := 0 })
                envs false)).halt with
          | ret rv rst renvs => exact ⟨_, rfl⟩
          | exit code => exact ⟨_, rfl⟩
          | stop => exact ⟨_, rfl⟩
        · exact ⟨_, rfl⟩

/-- Unpacking a true threshold test: both quote fetches succeeded and the
computed profit reached the configured minimum. -/
theorem isProfitable_spec (cfg : Config) (env : CycleEnv)
    (h : isProfitable cfg env = true) :
    ∃ bo so, env.buyOffer = .ok bo ∧ env.sellOffer = .ok so ∧
      cfg.minProfitPercent ≤ percent bo.efPrice so.efPrice := by
  unfold isProfitable quotedProfit at h
  cases hbuy : env.buyOffer with
  | error e =>
    rw [hbuy] at h
    simp at h
  | ok bo =>
    cases hsell : env.sellOffer with
    | error e =>
      rw [hbuy, hsell] at h
      simp at h
    | ok so =>
      rw [hbuy, hsell] at h
      simp only [decide_eq_true_eq] at h
      exact ⟨bo, so, rfl, rfl, h⟩

/-- A bursting invocation cannot recurse (the revert branch needs a helper
poller, the burst loop needs `!bursting`), so whenever it returns, the only
write to the rotation index is the single `finally` advance. -/
theorem bursting_ret_advance (cfg : Config) (fuel : ℕ) (st : BotState)
    (env : CycleEnv) (envs : List CycleEnv) (v : Bool) (st' : BotState)
    (envs' : List CycleEnv)
    (h : (engine cfg (fuel+1) (.cycle st (env :: envs) true)).halt =
      .ret v st' envs') :
    st'.pollerIndex = (st.pollerIndex + 1) % (cfg.helperCount + 1) := by
  simp only [engine, Bool.true_or, Bool.not_true, Bool.and_false,
    Bool.false_and, if_true] at h
  cases hbuy : env.buyOffer with
  | error e =>
    rw [hbuy] at h
    simp only [notProfitResult, if_true] at h
    cases h
    rfl
  | ok bo =>
  rw [hbuy] at h
  cases hsell : env.sellOffer with
  | error e =>
    rw [hsell] at h
    simp only [notProfitResult, if_true] at h
    cases h
    rfl
  | ok so =>
  rw [hsell] at h
  simp only at h
  by_cases hprof : cfg.minProfitPercent ≤ percent bo.efPrice so.efPrice
  case neg =>
    rw [if_neg hprof] at h
    simp only [notProfitResult, if_true] at h
    cases h
    rfl
  rw [if_pos hprof] at h
  simp only [Bool.false_eq_true, if_false] at h
  by_cases hsim : cfg.simulation = true
  · rw [if_pos hsim] at h
    cases h
    rfl
  · rw [if_neg hsim] at h
    cases hcf : env.confirmFirst with
    | error e =>
      rw [hcf] at h
      cases h
      rfl
    | ok u =>
    rw [hcf] at h
    cases hcs : env.confirmSecond with
    | error e =>
      rw [hcs] at h
      simp only at h
      split at h
      · simp at h
      · cases h
        rfl
    | ok u2 =>
      rw [hcs] at h
      simp only at h
      cases h
      rfl

/-- In simulation mode a bursting invocation over a profitable quote pair
returns `true` after the single rotation advance, with no confirmations. -/
theorem sim_burst_cycle (cfg : Config) (fuel : ℕ) (st : BotState)
    (env : CycleEnv) (envs : List CycleEnv)
    (hSim : cfg.simulation = true) (hProf : isProfitable cfg env = true) :
    engine cfg (fuel+1) (.cycle st (env :: envs) true) =
      ⟨.ret true (advanceRotation cfg st) envs,
       [Ev.fetched .main,
        Ev.advanced ((st.pollerIndex + 1) % (cfg.helperCount + 1)),
        Ev.wouldSimulate]⟩ := by
  obtain ⟨bo, so, hbuy, hsell, hle⟩ := isProfitable_spec cfg env hProf
  simp only [engine, Bool.true_or, Bool.not_true, Bool.and_false,
    Bool.false_and, if_true]
  rw [hbuy, hsell]
  simp only
  rw [if_pos hle, if_pos hSim]
  simp only [Bool.false_eq_true, if_false]
  rfl

/-- Running the burst loop in simulation mode with `n` budgeted cycles over
`n` profitable quote pairs executes all of them: the budget drains to `0`
and the rotation index shifts by `n`, one advance per chained cycle. -/
theorem sim_chain_run (cfg : Config) : ∀ (n g : ℕ) (st : BotState)
    (envs : List CycleEnv) (evs : List Ev),
    cfg.simulation = true →
    (∀ e ∈ envs, isProfitable cfg e = true) →
    st.burstsLeft = (n : ℤ) → envs.length = n →
    st.pollerIndex < cfg.helperCount + 1 →
    ∃ evsF, engine cfg (n + 1 + g) (.chain st envs evs) =
      ⟨.ret true ⟨(st.pollerIndex + n) % (cfg.helperCount + 1), 0, st.burstMax⟩
        [], evsF⟩ := by
  intro n
  induction n with
  | zero =>
    intro g st envs evs hSim hAll hBl hLen hIdx
    have henvs : envs = [] := List.eq_nil_of_length_eq_zero hLen
    subst henvs
    cases st with
    | mk i bl mx =>
      simp only [Nat.cast_zero] at hBl
      subst hBl
      have hf : 0 + 1 + g = g + 1 := by omega
      rw [hf]
      refine ⟨evs, ?_⟩
      simp only [engine]
      rw [if_neg (by simp)]
      simp only [Nat.add_zero]
      rw [Nat.mod_eq_of_lt hIdx]
  | succ m ih =>
    intro g st envs evs hSim hAll hBl hLen hIdx
    cases envs with
    | nil => simp at hLen
    | cons e rest =>
      have hrest : rest.length = m := by simpa using hLen
      cases st with
      | mk i bl mx =>
        simp only at hBl
        subst hBl
        have hfuel : (m + 1) + 1 + g = ((m + 1 + g) + 1) := by omega
        rw [hfuel]
        simp only [engine]
        rw [if_pos (by exact_mod_cast Nat.succ_pos m)]
        have hfuel2 : m + 1 + g = (m + g) + 1 := by omega
        have hcast : ((m + 1 : ℕ) : ℤ) - 1 = (m : ℤ) := by
          push_cast
          ring
        have hspend : spendBurst ⟨i, ((m + 1 : ℕ) : ℤ), mx⟩ =
            ⟨i, (m : ℤ), mx⟩ := by
          simp only [spendBurst, hcast]
        rw [hfuel2, hspend,
          sim_burst_cycle cfg (m + g) _ e rest hSim (hAll e (by simp))]
        simp only
        rw [← hfuel2]
        obtain ⟨evsF, hF⟩ := ih g
          (advanceRotation cfg ⟨i, (m : ℤ), mx⟩) rest
          (evs ++ [Ev.fetched .main,
            Ev.advanced ((i + 1) % (cfg.helperCount + 1)),
            Ev.wouldSimulate])
          hSim (fun x hx => hAll x (by simp [hx])) rfl hrest
          (Nat.mod_lt _ (Nat.succ_pos _))
        rw [hF]
        refine ⟨evsF, ?_⟩
        simp only [advanceRotation]
        have hmod : ((i + 1) % (cfg.helperCount + 1) + m) % (cfg.helperCount + 1)
            = (i + (m + 1)) % (cfg.helperCount + 1) := by
          rw [Nat.mod_add_mod]
          congr 1
          omega
        rw [hmod]

/-! ## Claims -/

/-- Claim C4: at startup, given the advertised `windowMs` and `maxRequests`,
the calibrator computes `minInterval = 2*windowMs/maxRequests/1000` seconds;
an unconfigured interval adopts `minInterval`; a configured interval strictly
below it fails fast (the process does not start); one strictly above it sets
`burstMax = floor((interval - minInterval)/minInterval/4*maxRequests)`; one
exactly equal leaves the ceiling at zero; and for `windowMs = 1000`,
`maxRequests = 10`, interval `1.0 s`: `minInterval = 0.2 s`, `burstMax = 10`. -/
theorem c4_calibration (windowMs maxRequests i : ℚ) :
    (minIntervalOf windowMs maxRequests = 2 * windowMs / maxRequests / 1000)
    ∧ (checkInterval windowMs maxRequests none =
        .ok (minIntervalOf windowMs maxRequests) 0)
    ∧ (i ≠ 0 → i < minIntervalOf windowMs maxRequests →
        checkInterval windowMs maxRequests (some i) = .fail)
    ∧ (i ≠ 0 → minIntervalOf windowMs maxRequests < i →
        checkInterval windowMs maxRequests (some i) =
          .ok i ⌊(i - minIntervalOf windowMs maxRequests) /
            minIntervalOf windowMs maxRequests / 4 * maxRequests⌋)
    ∧ (i ≠ 0 → i = minIntervalOf windowMs maxRequests →
        checkInterval windowMs maxRequests (some i) = .ok i 0)
    ∧ minIntervalOf 1000 10 = 1/5
    ∧ checkInterval 1000 10 (some 1) = .ok 1 10 := by
  refine ⟨rfl, rfl, ?_, ?_, ?_, by norm_num [minIntervalOf],
    by norm_num [checkInterval, minIntervalOf]⟩
  · intro h0 hlt
    simp only [checkInterval, if_neg h0, if_pos hlt]
  · intro h0 hgt
    simp only [checkInterval, if_neg h0, if_neg (not_lt.mpr hgt.le),
      if_pos hgt]
  · intro h0 heq
    subst heq
    simp only [checkInterval, if_neg h0, lt_irrefl, if_false]

/-- Witness for C4: the concrete branch facts at `windowMs = 1000`,
`maxRequests = 10`, configured interval `1 s`. -/
theorem c4_calibration_witness :
    checkInterval 1000 10 (some 1) =
      .ok 1 ⌊((1 : ℚ) - minIntervalOf 1000 10) / minIntervalOf 1000 10 / 4 * 10⌋ :=
  (c4_calibration 1000 10 1).2.2.2.1 (by norm_num) (by norm_num [minIntervalOf])

/-- Claim C8: the computed profit is `(sellPrice/buyPrice - 1)*100` for
every fetched quote pair; the threshold test is insensitive to which leg
executes first (`initialBuy`); and `percent 100 101 = 1` exactly. -/
theorem c8_profit (env : CycleEnv) (bo so : Offer) :
    (∀ value1 value2 : ℚ, percent value1 value2 = (value2 / value1 - 1) * 100)
    ∧ (env.buyOffer = .ok bo → env.sellOffer = .ok so →
        quotedProfit env = some ((so.efPrice / bo.efPrice - 1) * 100))
    ∧ (∀ (iB1 iB2 bu si : Bool) (minP : ℚ) (K : ℕ) (e : CycleEnv),
        isProfitable ⟨iB1, minP, bu, si, K⟩ e =
          isProfitable ⟨iB2, minP, bu, si, K⟩ e)
    ∧ percent 100 101 = 1 := by
  refine ⟨fun v1 v2 => rfl, ?_, fun iB1 iB2 bu si minP K e => rfl,
    by norm_num [percent]⟩
  intro hb hs
  simp [quotedProfit, hb, hs, percent]

/-- Witness for C8 on the profitable fixture quotes (buy at 100, sell at
101). -/
theorem c8_profit_witness :
    quotedProfit envProfit = some (((101 : ℚ) / 100 - 1) * 100) :=
  (c8_profit envProfit ⟨1, 100⟩ ⟨2, 101⟩).2.1 rfl rfl

/-- Counterexample for claim C9: with a configured interval of 1 s, no
helpers, and a previous cycle that ran for 300 ms, the scheduler arms the
next invocation 1000 ms later (`setInterval` with a fixed period), not
`max(1000 - 300, 0) = 700` ms as the claim requires. -/
theorem c9_counterexample :
    nextDelayMs 1 0 300 = 1000 ∧ specNextDelayMs 1000 300 = 700 ∧
      nextDelayMs 1 0 300 ≠ specNextDelayMs 1000 300 :=
  ⟨by norm_num [nextDelayMs, scheduledIntervalMs],
   by norm_num [specNextDelayMs],
   by norm_num [nextDelayMs, scheduledIntervalMs, specNextDelayMs]⟩

/-- Amended claim C9: `startTrading` arms one fixed-period timer; the delay
before the next cycle is the constant `intervalSeconds/(helperCount+1)*1000`
milliseconds, independent of the previous cycle's runtime (no drift
compensation, no completion gating). -/
theorem c9_fixed_period (intervalSeconds : ℚ) (helperCount : ℕ) (r1 r2 : ℚ) :
    nextDelayMs intervalSeconds helperCount r1 =
      nextDelayMs intervalSeconds helperCount r2
    ∧ nextDelayMs intervalSeconds helperCount r1 =
      intervalSeconds / (helperCount + 1) * 1000 :=
  ⟨rfl, rfl⟩

/-- Claim C2 evaluated at the failing input: on the fatal recovery path
(first leg confirmed, second confirm throws, history query finds nothing,
corrective offer request throws) the run does log at fatal severity and
terminate with exit status 1, but the `sleep(500)` before the exit resolves
after 0 ms — `setTimeout(resolve(), ms)` invokes `resolve` immediately — so
the claimed brief pause to flush the log does not happen. -/
theorem c2_fatal_exit_without_pause :
    tradeCycle cfgPlain 1 ⟨0, 0, 0⟩ [envFatal] false =
      ⟨.exit 1, [.fetched .main, .advanced 0, .confirmed 1,
        .queriedTrades .sell, .requestedRecoveryOffer .sell, .logFatal,
        .slept 500]⟩
    ∧ sleepResolveDelayMs 500 = 0
    ∧ sleepResolveDelayMs 500 ≠ 500 := by
  refine ⟨?_, rfl, by norm_num [sleepResolveDelayMs]⟩
  norm_num [tradeCycle, engine, percent, advanceRotation, recoverSecondLeg,
    cfgPlain, envFatal]

/-- Counterexample for claim C3: the source reads no auto-recovery flag.  In
a scenario where the history query finds no matching second-leg trade, the
recovery block requests and confirms a corrective offer under either value of
the one configuration field it consults (`initialBuy`); no configuration
makes it stop without the corrective trade. -/
theorem c3_counterexample :
    recoverSecondLeg ⟨false, 1, false, false, 0⟩ ⟨2, 101⟩ envNoMatch =
      (.normalized, [.queriedTrades .buy, .requestedRecoveryOffer .buy,
        .recoveryConfirmed 7])
    ∧ recoverSecondLeg ⟨true, 1, false, false, 0⟩ ⟨2, 101⟩ envNoMatch =
      (.normalized, [.queriedTrades .sell, .requestedRecoveryOffer .sell,
        .recoveryConfirmed 7]) :=
  ⟨rfl, rfl⟩

/-- Amended claim C3: no configuration flag gates the corrective trade.
Whenever the trade-history query succeeds and shows no trade matching the
second offer, the recovery procedure requests a fresh offer for the missing
operation, for every configuration. -/
theorem c3_unconditional_corrective (cfg : Config) (so : Offer)
    (env : CycleEnv) (ts : List Trade)
    (h1 : env.tradesResult = .ok ts)
    (h2 : ts.any (fun t => t.offerId == so.offerId) = false) :
    Ev.requestedRecoveryOffer (if cfg.initialBuy then Op.sell else Op.buy) ∈
      (recoverSecondLeg cfg so env).2 := by
  simp only [recoverSecondLeg, h1, h2]
  cases env.recoveryOffer with
  | error e => simp
  | ok off =>
    cases env.recoveryConfirm with
    | error e => simp
    | ok u => simp

/-- Witness for the amended C3 at the no-match fixture. -/
theorem c3_unconditional_corrective_witness :
    Ev.requestedRecoveryOffer (if cfgPlain.initialBuy then Op.sell else Op.buy) ∈
      (recoverSecondLeg cfgPlain ⟨2, 101⟩ envNoMatch).2 :=
  c3_unconditional_corrective cfgPlain ⟨2, 101⟩ envNoMatch [] rfl rfl

/-- Claim C5: after every completed polling attempt that found no profitable
spread — whether the quote fetch succeeded or failed — the rotation index has
advanced exactly once, wrapping modulo the number of credentials; and with 1
primary plus 2 helpers, six successive completed non-profitable cycles
(alternating fetch success and fetch failure) visit the pollers of indices
`0,1,2,0,1,2`. -/
theorem c5_rotation :
    (∀ (cfg : Config) (fuel : ℕ) (st : BotState) (env : CycleEnv)
        (envs : List CycleEnv) (bursting v : Bool) (st' : BotState)
        (envs' : List CycleEnv),
        isProfitable cfg env = false →
        (tradeCycle cfg (fuel+1) st (env :: envs) bursting).halt =
          .ret v st' envs' →
        st'.pollerIndex = (st.pollerIndex + 1) % (cfg.helperCount + 1))
    ∧ (runSchedule cfgRot 1 ⟨0, 0, 0⟩
          [[envLow], [envErr], [envLow], [envErr], [envLow], [envErr]]).map
        fetchedPollers =
      [[.main], [.helper 0], [.helper 1], [.main], [.helper 0], [.helper 1]] := by
  constructor
  · intro cfg fuel st env envs bursting v st' envs' hp h
    simp only [tradeCycle, engine] at h
    cases hbuy : env.buyOffer with
    | error e =>
      rw [hbuy] at h
      simp only [notProfitResult] at h
      split at h <;> cases h <;> rfl
    | ok bo =>
      rw [hbuy] at h
      cases hsell : env.sellOffer with
      | error e =>
        rw [hsell] at h
        simp only [notProfitResult] at h
        split at h <;> cases h <;> rfl
      | ok so =>
        have hnot : ¬ cfg.minProfitPercent ≤ percent bo.efPrice so.efPrice := by
          unfold isProfitable quotedProfit at hp
          rw [hbuy, hsell] at hp
          simpa using hp
        rw [hsell] at h
        simp only at h
        rw [if_neg hnot] at h
        simp only [notProfitResult] at h
        split at h <;> cases h <;> rfl
  · norm_num [runSchedule, tradeCycle, engine, fetchedPollers, percent,
      advanceRotation, notProfitResult, earnBurst, cfgRot, envLow, envErr,
      List.filterMap]

/-- Witness for C5: a helper cycle (index 1 of 3) over the low-spread
fixture ends with the rotation index advanced to 2. -/
theorem c5_rotation_witness :
    (⟨2, 0, 0⟩ : BotState).pollerIndex =
      ((⟨1, 0, 0⟩ : BotState).pollerIndex + 1) % (cfgRot.helperCount + 1) :=
  c5_rotation.1 cfgRot 0 ⟨1, 0, 0⟩ envLow [] false false ⟨2, 0, 0⟩ []
    (by norm_num [isProfitable, quotedProfit, percent, envLow, cfgRot])
    (by norm_num [tradeCycle, engine, percent, advanceRotation,
      notProfitResult, earnBurst, cfgRot, envLow])

/-- Claim C6: the burst balance obeys `0 ≤ remaining ≤ ceiling` throughout:
the no-profit increment is capped at the ceiling, the guarded decrements
never push below zero, and every state a scheduled run of trade cycles
(reverts, burst chains and no-profit increments included) can return
satisfies the invariant. -/
theorem c6_burst_bounds :
    (∀ st : BotState, BurstInv st → BurstInv (earnBurst st))
    ∧ (∀ st : BotState, BurstInv st → 0 < st.burstsLeft →
        BurstInv (spendBurst st))
    ∧ (∀ (cfg : Config) (fuel : ℕ) (scripts : List (List CycleEnv))
        (st : BotState) (r : RunResult) (v : Bool) (st' : BotState)
        (envs' : List CycleEnv),
        BurstInv st → r ∈ runSchedule cfg fuel st scripts →
        r.halt = .ret v st' envs' → BurstInv st') := by
  refine ⟨burstInv_earnBurst, burstInv_spendBurst, ?_⟩
  intro cfg fuel scripts
  induction scripts with
  | nil =>
    intro st r v st' envs' hInv hr hhalt
    simp [runSchedule] at hr
  | cons script rest ih =>
    intro st r v st' envs' hInv hr hhalt
    simp only [runSchedule] at hr
    cases hh : (tradeCycle cfg fuel st script false).halt with
    | ret rv rst renvs =>
      rw [hh] at hr
      simp only at hr
      have hrst : BurstInv rst := by
        refine engine_burstInv fuel cfg (.cycle st script false) ?_ rv rst renvs hh
        exact hInv
      rcases List.mem_cons.mp hr with h1 | h2
      · subst h1
        refine engine_burstInv fuel cfg (.cycle st script false) ?_ v st' envs' hhalt
        exact hInv
      · exact ih rst r v st' envs' hrst h2 hhalt
    | exit code =>
      rw [hh] at hr
      simp only [List.mem_singleton] at hr
      subst hr
      rw [hh] at hhalt
      cases hhalt
    | stop =>
      rw [hh] at hr
      simp only [List.mem_singleton] at hr
      subst hr
      rw [hh] at hhalt
      cases hhalt

/-- Witness for C6: the cap and guard facts at a concrete state, and the
invariant of the state returned by a one-cycle schedule. -/
theorem c6_burst_bounds_witness :
    BurstInv (earnBurst ⟨0, 1, 5⟩) ∧ BurstInv (spendBurst ⟨0, 1, 5⟩) ∧
      BurstInv (⟨0, 0, 0⟩ : BotState) :=
  ⟨c6_burst_bounds.1 ⟨0, 1, 5⟩ (by exact ⟨by norm_num, by norm_num⟩),
   c6_burst_bounds.2.1 ⟨0, 1, 5⟩ (by exact ⟨by norm_num, by norm_num⟩)
     (by norm_num),
   c6_burst_bounds.2.2 cfgPlain 1 [[envLow]] ⟨0, 0, 0⟩
     (tradeCycle cfgPlain 1 ⟨0, 0, 0⟩ [envLow] false) false ⟨0, 0, 0⟩ []
     (by exact ⟨by norm_num, by norm_num⟩)
     (by norm_num [runSchedule, tradeCycle, engine, percent, advanceRotation,
       notProfitResult, earnBurst, cfgPlain, envLow])
     (by norm_num [tradeCycle, engine, percent, advanceRotation,
       notProfitResult, earnBurst, cfgPlain, envLow])⟩

/-- Claim C1: when the cycle executes (primary poller, profitable, not
simulating), the first confirm succeeds and the second throws, the run enters
the recovery procedure: it first queries the trade history for the second
leg's operation (the opposite of leg 1's); if a trade referencing the second
offer's identifier is found there, the outcome is `settled` with no further
API action; otherwise a fresh offer for the missing operation is requested
and confirmed immediately, whatever its price `q`. -/
theorem c1_recovery (cfg : Config) (fuel : ℕ) (st : BotState) (env : CycleEnv)
    (envs : List CycleEnv) (bo so : Offer)
    (hIdx : st.pollerIndex = 0) (hSim : cfg.simulation = false)
    (hbuy : env.buyOffer = .ok bo) (hsell : env.sellOffer = .ok so)
    (hProf : cfg.minProfitPercent ≤ percent bo.efPrice so.efPrice)
    (hcf : env.confirmFirst = .ok ()) (hcs : env.confirmSecond = .error ()) :
    (tradeCycle cfg (fuel+1) st (env :: envs) false =
      ⟨(match (recoverSecondLeg cfg (if cfg.initialBuy then so else bo) env).1 with
        | .fatal => Halt.exit 1
        | _ => Halt.ret false (advanceRotation cfg st) envs),
       Ev.fetched .main ::
         Ev.advanced ((st.pollerIndex + 1) % (cfg.helperCount + 1)) ::
         Ev.confirmed (if cfg.initialBuy then bo else so).offerId ::
         (recoverSecondLeg cfg (if cfg.initialBuy then so else bo) env).2⟩)
    ∧ ((recoverSecondLeg cfg (if cfg.initialBuy then so else bo) env).2.head? =
        some (.queriedTrades (if cfg.initialBuy then Op.sell else Op.buy)))
    ∧ (∀ ts : List Trade, env.tradesResult = .ok ts →
        ts.any (fun t => t.offerId ==
          (if cfg.initialBuy then so else bo).offerId) = true →
        recoverSecondLeg cfg (if cfg.initialBuy then so else bo) env =
          (.settled,
           [.queriedTrades (if cfg.initialBuy then Op.sell else Op.buy),
            .secondLegSettled]))
    ∧ (∀ (ts : List Trade) (oid : ℕ) (q : ℚ), env.tradesResult = .ok ts →
        ts.any (fun t => t.offerId ==
          (if cfg.initialBuy then so else bo).offerId) = false →
        env.recoveryOffer = .ok ⟨oid, q⟩ → env.recoveryConfirm = .ok () →
        recoverSecondLeg cfg (if cfg.initialBuy then so else bo) env =
          (.normalized,
           [.queriedTrades (if cfg.initialBuy then Op.sell else Op.buy),
            .requestedRecoveryOffer (if cfg.initialBuy then Op.sell else Op.buy),
            .recoveryConfirmed oid])) := by
  have hm : (false || st.pollerIndex == 0) = true := by simp [hIdx]
  refine ⟨?_, ?_, ?_, ?_⟩
  · simp only [tradeCycle, engine]
    rw [hbuy, hsell]
    simp only
    rw [if_pos hProf]
    rw [hm]
    simp only [if_true]
    rw [hSim]
    simp only [Bool.false_eq_true, if_false]
    rw [hcf, hcs]
    simp only
    cases hrr : (recoverSecondLeg cfg (if cfg.initialBuy then so else bo) env).1 with
    | fatal => simp [hrr, advanceRotation]
    | settled => simp [hrr, advanceRotation]
    | normalized => simp [hrr, advanceRotation]
  · unfold recoverSecondLeg
    cases ht : env.tradesResult with
    | error e => rfl
    | ok ts =>
      simp only []
      by_cases hany : (ts.any fun t => t.offerId ==
          (if cfg.initialBuy then so else bo).offerId) = true
      · simp [hany]
      · rw [if_neg hany]
        cases env.recoveryOffer with
        | error e2 => rfl
        | ok off =>
          cases env.recoveryConfirm with
          | error e3 => rfl
          | ok u => rfl
  · intro ts hts hany
    simp [recoverSecondLeg, hts, hany]
  · intro ts oid q hts hany hro hrc
    simp [recoverSecondLeg, hts, hany, hro, hrc]

/-- Witness for C1: concrete run over the fixture in which the second leg
turns out to have settled server-side. -/
theorem c1_recovery_witness :
    tradeCycle cfgPlain 1 ⟨0, 0, 0⟩ [envSettled] false =
      ⟨(match (recoverSecondLeg cfgPlain
            (if cfgPlain.initialBuy then (⟨2, 101⟩ : Offer) else ⟨1, 100⟩)
            envSettled).1 with
        | .fatal => Halt.exit 1
        | _ => Halt.ret false (advanceRotation cfgPlain ⟨0, 0, 0⟩) []),
       Ev.fetched .main ::
         Ev.advanced ((0 + 1) % (cfgPlain.helperCount + 1)) ::
         Ev.confirmed
           (if cfgPlain.initialBuy then (⟨1, 100⟩ : Offer) else ⟨2, 101⟩).offerId ::
         (recoverSecondLeg cfgPlain
           (if cfgPlain.initialBuy then (⟨2, 101⟩ : Offer) else ⟨1, 100⟩)
           envSettled).2⟩ :=
  (c1_recovery cfgPlain 0 ⟨0, 0, 0⟩ envSettled [] ⟨1, 100⟩ ⟨2, 101⟩ rfl rfl rfl
    rfl (by norm_num [percent, cfgPlain]) rfl rfl).1

/-- Claim C7: when a helper poller (nonzero rotation index, not bursting)
observes a profitable quote pair and a burst unit is available, the cycle
consumes one unit, resets the rotation index to zero and immediately re-runs
a cycle that fetches with the primary credential; the helper invocation
itself never confirms an offer — any confirmation in the whole run comes
from the primary re-run. -/
theorem c7_revert (cfg : Config) (fuel : ℕ) (st : BotState) (env env2 : CycleEnv)
    (envs : List CycleEnv) (hIdx : st.pollerIndex ≠ 0)
    (hProf : isProfitable cfg env = true) (hB : 0 < st.burstsLeft) :
    (tradeCycle cfg (fuel+2) st (env :: env2 :: envs) false =
      ⟨(match (tradeCycle cfg (fuel+1) ⟨0, st.burstsLeft - 1, st.burstMax⟩
            (env2 :: envs) false).halt with
        | .ret _ st2 envs2 => Halt.ret false st2 envs2
        | h => h),
       Ev.fetched (.helper (st.pollerIndex - 1)) ::
         Ev.advanced ((st.pollerIndex + 1) % (cfg.helperCount + 1)) ::
         Ev.revertToMain ::
         (tradeCycle cfg (fuel+1) ⟨0, st.burstsLeft - 1, st.burstMax⟩
           (env2 :: envs) false).evs⟩)
    ∧ (∃ tail, (tradeCycle cfg (fuel+1) ⟨0, st.burstsLeft - 1, st.burstMax⟩
          (env2 :: envs) false).evs = Ev.fetched Poller.main :: tail)
    ∧ (∀ oid : ℕ,
        Ev.confirmed oid ∈
          (tradeCycle cfg (fuel+2) st (env :: env2 :: envs) false).evs →
        Ev.confirmed oid ∈
          (tradeCycle cfg (fuel+1) ⟨0, st.burstsLeft - 1, st.burstMax⟩
            (env2 :: envs) false).evs) := by
  obtain ⟨bo, so, hbuy, hsell, hle⟩ := isProfitable_spec cfg env hProf
  have hm : (false || st.pollerIndex == 0) = false := by
    simp [hIdx]
  have hB' : (0 : ℤ) < (advanceRotation cfg st).burstsLeft := hB
  have ha : tradeCycle cfg (fuel+2) st (env :: env2 :: envs) false =
      ⟨(match (tradeCycle cfg (fuel+1) ⟨0, st.burstsLeft - 1, st.burstMax⟩
            (env2 :: envs) false).halt with
        | .ret _ st2 envs2 => Halt.ret false st2 envs2
        | h => h),
       Ev.fetched (.helper (st.pollerIndex - 1)) ::
         Ev.advanced ((st.pollerIndex + 1) % (cfg.helperCount + 1)) ::
         Ev.revertToMain ::
         (tradeCycle cfg (fuel+1) ⟨0, st.burstsLeft - 1, st.burstMax⟩
           (env2 :: envs) false).evs⟩ := by
    simp only [tradeCycle]
    generalize env2 :: envs = Es
    rw [show fuel + 2 = (fuel + 1) + 1 from rfl]
    simp only [engine]
    rw [hbuy, hsell]
    simp only
    rw [if_pos hle, hm]
    simp only [Bool.false_eq_true, if_false]
    rw [if_pos hB']
    rw [show spendBurst { advanceRotation cfg st with pollerIndex := 0 } =
      (⟨0, st.burstsLeft - 1, st.burstMax⟩ : BotState) from rfl]
    cases hh : (engine cfg (fuel+1)
        (.cycle (⟨0, st.burstsLeft - 1, st.burstMax⟩ : BotState) Es false)).halt with
    | ret rv rst renvs => simp [advanceRotation]
    | exit code => simp [advanceRotation]
    | stop => simp [advanceRotation]
  refine ⟨ha, ?_, ?_⟩
  · obtain ⟨tail, htail⟩ :=
      cycle_evs_head cfg fuel (⟨0, st.burstsLeft - 1, st.burstMax⟩ : BotState)
        env2 envs false
    exact ⟨tail, htail⟩
  · intro oid hmem
    rw [ha] at hmem
    simpa using hmem

/-- Witness for C7: a helper detection at index 1 (two helpers, simulation
mode) with one burst unit available. -/
theorem c7_revert_witness :
    (tradeCycle cfgSim 2 ⟨1, 1, 5⟩ [envProfit, envProfit] false =
      ⟨(match (tradeCycle cfgSim 1 ⟨0, 0, 5⟩ [envProfit] false).halt with
        | .ret _ st2 envs2 => Halt.ret false st2 envs2
        | h => h),
       Ev.fetched (.helper 0) :: Ev.advanced ((1 + 1) % (cfgSim.helperCount + 1)) ::
         Ev.revertToMain ::
         (tradeCycle cfgSim 1 ⟨0, 0, 5⟩ [envProfit] false).evs⟩)
    ∧ (∃ tail, (tradeCycle cfgSim 1 ⟨0, 0, 5⟩ [envProfit] false).evs =
        Ev.fetched Poller.main :: tail)
    ∧ (∀ oid : ℕ,
        Ev.confirmed oid ∈
          (tradeCycle cfgSim 2 ⟨1, 1, 5⟩ [envProfit, envProfit] false).evs →
        Ev.confirmed oid ∈ (tradeCycle cfgSim 1 ⟨0, 0, 5⟩ [envProfit] false).evs) :=
  c7_revert cfgSim 0 ⟨1, 1, 5⟩ envProfit envProfit [] (by norm_num)
    (by norm_num [isProfitable, quotedProfit, percent, envProfit, cfgSim])
    (by norm_num)

/-- Claim C10: a bursting invocation always fetches with the primary
credential regardless of the rotation index, yet still advances the index by
one in the cleanup step; consequently a chain of `n` burst cycles (run in
simulation mode over `n` profitable quote pairs, budget `n`) shifts the
rotation index by `n` modulo the credential count even though no helper was
used. -/
theorem c10_burst_poller :
    (∀ (cfg : Config) (fuel : ℕ) (st : BotState) (env : CycleEnv)
        (envs : List CycleEnv),
        (∃ tail, (tradeCycle cfg (fuel+1) st (env :: envs) true).evs =
          Ev.fetched Poller.main :: tail)
        ∧ ∀ (v : Bool) (st' : BotState) (envs' : List CycleEnv),
            (tradeCycle cfg (fuel+1) st (env :: envs) true).halt =
              .ret v st' envs' →
            st'.pollerIndex = (st.pollerIndex + 1) % (cfg.helperCount + 1))
    ∧ (∀ (cfg : Config) (n g : ℕ) (st : BotState) (envs : List CycleEnv)
        (evs : List Ev),
        cfg.simulation = true →
        (∀ e ∈ envs, isProfitable cfg e = true) →
        st.burstsLeft = (n : ℤ) → envs.length = n →
        st.pollerIndex < cfg.helperCount + 1 →
        ∃ evsF, burstLoop cfg (n + 1 + g) st envs evs =
          ⟨.ret true ⟨(st.pollerIndex + n) % (cfg.helperCount + 1), 0,
            st.burstMax⟩ [], evsF⟩) := by
  constructor
  · intro cfg fuel st env envs
    constructor
    · obtain ⟨tail, htail⟩ := cycle_evs_head cfg fuel st env envs true
      exact ⟨tail, htail⟩
    · intro v st' envs' h
      exact bursting_ret_advance cfg fuel st env envs v st' envs' h
  · intro cfg n g st envs evs hSim hAll hBl hLen hIdx
    exact sim_chain_run cfg n g st envs evs hSim hAll hBl hLen hIdx

/-- Witness for C10: a bursting cycle from rotation index 1 still fetches
with the primary and advances to 2; a burst chain of length 2 from index 0
drains the budget and shifts the index by 2 (mod 3). -/
theorem c10_burst_poller_witness :
    ((∃ tail, (tradeCycle cfgSim 1 ⟨1, 0, 5⟩ [envProfit] true).evs =
        Ev.fetched Poller.main :: tail)
      ∧ (⟨2, 0, 5⟩ : BotState).pollerIndex = (1 + 1) % (cfgSim.helperCount + 1))
    ∧ (∃ evsF, burstLoop cfgSim (2 + 1 + 0) ⟨0, 2, 5⟩ [envProfit, envProfit] [] =
        ⟨.ret true ⟨(0 + 2) % (cfgSim.helperCount + 1), 0, 5⟩ [], evsF⟩) :=
  ⟨⟨(c10_burst_poller.1 cfgSim 0 ⟨1, 0, 5⟩ envProfit []).1,
    (c10_burst_poller.1 cfgSim 0 ⟨1, 0, 5⟩ envProfit []).2 true ⟨2, 0, 5⟩ []
      (by norm_num [tradeCycle, engine, percent, advanceRotation, cfgSim,
        envProfit])⟩,
   c10_burst_poller.2 cfgSim 2 0 ⟨0, 2, 5⟩ [envProfit, envProfit] [] rfl
     (by norm_num [isProfitable, quotedProfit, percent, envProfit, cfgSim])
     (by norm_num) rfl (by norm_num [cfgSim])⟩

end Biscoint
